import Mathlib

/-!
Verification of the static source-analysis engine of `backend/utils/code_analyzer.py`:
the tree-sitter CST walker (`PythonAnalyzer`), the Code Context Graph accumulator
(`CodeContextGraph`), and its query operations, together with the language-detection
guard of `CodeParser`.

Modelling notes.
Tree-sitter nodes are embedded as `TSNode`: a grammar type tag, byte range, row range
(tree-sitter `start_point[0]` / `end_point[0]`), and the ordered child list (named and
anonymous children alike, as exposed by `node.children` in the Python binding).
Python string slicing `code[start_byte:end_byte]` is modelled character-wise
(`pySlice`); all concrete inputs in this file are ASCII, where byte offsets and
character offsets coincide.
Python dicts that always carry the same keys are modelled as structures.  A class
node dict carries no `params`/`calls` keys; downstream reads use `.get` with default,
so the structure fields `params`/`calls` of a class `GraphNode` are `[]`, and
symmetrically `methods`/`bases` of a function node are `[]`.
-/

mutual
inductive TSNode : Type where
  | mk (type : String) (startByte endByte startRow endRow : Nat) (children : TSNodeList)

inductive TSNodeList : Type where
  | nil
  | cons (hd : TSNode) (tl : TSNodeList)
end

def TSNode.type : TSNode → String
  | .mk t _ _ _ _ _ => t

def TSNode.startByte : TSNode → Nat
  | .mk _ sb _ _ _ _ => sb

def TSNode.endByte : TSNode → Nat
  | .mk _ _ eb _ _ _ => eb

def TSNode.startRow : TSNode → Nat
  | .mk _ _ _ sr _ _ => sr

def TSNode.endRow : TSNode → Nat
  | .mk _ _ _ _ er _ => er

def TSNodeList.toList : TSNodeList → List TSNode
  | .nil => []
  | .cons c cs => c :: cs.toList

def TSNode.children (n : TSNode) : List TSNode :=
  match n with
  | .mk _ _ _ _ _ cs => cs.toList

/-- Helper for writing concrete trees: build a `TSNode` from a plain child list. -/
def tsList : List TSNode → TSNodeList
  | [] => .nil
  | c :: cs => .cons c (tsList cs)

def tsn (type : String) (startByte endByte startRow endRow : Nat)
    (children : List TSNode) : TSNode :=
  .mk type startByte endByte startRow endRow (tsList children)

/-- Python string slicing `code[s:e]` (character-wise; coincides with the source's
byte-offset slicing on ASCII input). -/
def pySlice (code : String) (s e : Nat) : String :=
  String.mk ((code.data.drop s).take (e - s))

/-- A record of `PythonAnalyzer._extract_function` (the constant `type: function`
dict entry is implied by the structure itself). -/
structure FunctionEntity where
  name : String
  params : List String
  line_start : Nat
  line_end : Nat
  calls : List String
deriving DecidableEq, Repr

structure MethodInfo where
  name : String
  line : Nat
deriving DecidableEq, Repr

/-- A record of `PythonAnalyzer._extract_class`. -/
structure ClassEntity where
  name : String
  methods : List MethodInfo
  bases : List String
  line_start : Nat
  line_end : Nat
deriving DecidableEq, Repr

/-- A record of `PythonAnalyzer._extract_import`. -/
structure ImportRecord where
  statement : String
  line : Nat
deriving DecidableEq, Repr

mutual
/-- Model of the inner `traverse` of `PythonAnalyzer._find_function_calls`: at a
`call` node, record the text of the first `identifier`- or `attribute`-typed child,
then continue into every child; elsewhere just continue into every child. -/
def find_function_calls (code : String) : TSNode → List String
  | .mk t _ _ _ _ cs =>
    (if t == "call" then
      match (TSNodeList.toList cs).find?
          (fun c => c.type == "identifier" || c.type == "attribute") with
      | some c => [pySlice code c.startByte c.endByte]
      | none => []
    else []) ++ find_function_calls_list code cs

def find_function_calls_list (code : String) : TSNodeList → List String
  | .nil => []
  | .cons c cs => find_function_calls code c ++ find_function_calls_list code cs
end

/-- Model of `PythonAnalyzer._extract_params`: the `identifier`-typed children of the
`parameters` node, in order. -/
def extract_params (code : String) (params_node : TSNode) : List String :=
  (params_node.children.filter (fun c => c.type == "identifier")).map
    (fun c => pySlice code c.startByte c.endByte)

/-- Model of `PythonAnalyzer._extract_bases`: the `identifier`-typed children of the
`argument_list` node, in order. -/
def extract_bases (code : String) (arg_list_node : TSNode) : List String :=
  (arg_list_node.children.filter (fun c => c.type == "identifier")).map
    (fun c => pySlice code c.startByte c.endByte)

/-- Model of `PythonAnalyzer._extract_methods`: scan only `block`-typed children of
the class node, and inside each, only `function_definition`-typed direct children. -/
def extract_methods (code : String) (class_nd : TSNode) : List MethodInfo :=
  ((class_nd.children.filter (fun c => c.type == "block")).map (fun b =>
    (b.children.filter (fun s => s.type == "function_definition")).map (fun stmt =>
      { name :=
          match stmt.children.find? (fun c => c.type == "identifier") with
          | some c => pySlice code c.startByte c.endByte
          | none => ""
        line := stmt.startRow + 1 }))).flatten

/-- Model of `PythonAnalyzer._extract_function`: the name is the first
`identifier`-typed child (empty string when none), the params come from the first
`parameters`-typed child, lines are the 1-based row span, and calls come from the
recursive scan of the whole subtree. -/
def extract_function (code : String) (n : TSNode) : FunctionEntity :=
  { name :=
      match n.children.find? (fun c => c.type == "identifier") with
      | some c => pySlice code c.startByte c.endByte
      | none => ""
    params :=
      match n.children.find? (fun c => c.type == "parameters") with
      | some p => extract_params code p
      | none => []
    line_start := n.startRow + 1
    line_end := n.endRow + 1
    calls := find_function_calls code n }

/-- Model of `PythonAnalyzer._extract_class`. -/
def extract_class (code : String) (n : TSNode) : ClassEntity :=
  { name :=
      match n.children.find? (fun c => c.type == "identifier") with
      | some c => pySlice code c.startByte c.endByte
      | none => ""
    methods := extract_methods code n
    bases :=
      match n.children.find? (fun c => c.type == "argument_list") with
      | some a => extract_bases code a
      | none => []
    line_start := n.startRow + 1
    line_end := n.endRow + 1 }

/-- Model of `PythonAnalyzer._extract_import`. -/
def extract_import (code : String) (n : TSNode) : ImportRecord :=
  { statement := pySlice code n.startByte n.endByte, line := n.startRow + 1 }

/-- Accumulator corresponding to `self.functions` / `self.classes` / `self.imports`. -/
structure ExtractionState where
  functions : List FunctionEntity
  classes : List ClassEntity
  imports : List ImportRecord
deriving DecidableEq, Repr

mutual
/-- Model of `PythonAnalyzer._traverse_node`: pre-order dispatch on the node's type
tag, then recursion into every child regardless of the match. -/
def traverse_node (code : String) (st : ExtractionState) : TSNode → ExtractionState
  | n@(.mk t _ _ _ _ cs) =>
    let st' :=
      if t == "function_definition" then
        { st with functions := st.functions ++ [extract_function code n] }
      else if t == "class_definition" then
        { st with classes := st.classes ++ [extract_class code n] }
      else if t == "import_statement" || t == "import_from_statement" then
        { st with imports := st.imports ++ [extract_import code n] }
      else st
    traverse_node_list code st' cs

def traverse_node_list (code : String) (st : ExtractionState) : TSNodeList → ExtractionState
  | .nil => st
  | .cons c cs => traverse_node_list code (traverse_node code st c) cs
end

/-- Pointwise append of extraction states (auxiliary for reasoning about the
accumulator threading of `traverse_node`). -/
def sAppend (a b : ExtractionState) : ExtractionState :=
  { functions := a.functions ++ b.functions,
    classes := a.classes ++ b.classes,
    imports := a.imports ++ b.imports }

mutual
/-- Accumulator-free form of `traverse_node`: the entities of the subtree rooted at
a node, in the pre-order the traversal appends them.  `traverse_node_eq_collect`
below proves it coincides with the source's state-threading loop. -/
def collect_node (code : String) : TSNode → ExtractionState
  | n@(.mk t _ _ _ _ cs) =>
    sAppend
      (if t == "function_definition" then ⟨[extract_function code n], [], []⟩
       else if t == "class_definition" then ⟨[], [extract_class code n], []⟩
       else if t == "import_statement" || t == "import_from_statement" then
         ⟨[], [], [extract_import code n]⟩
       else ⟨[], [], []⟩)
      (collect_list code cs)

def collect_list (code : String) : TSNodeList → ExtractionState
  | .nil => ⟨[], [], []⟩
  | .cons c cs => sAppend (collect_node code c) (collect_list code cs)
end

/-- The payload of `CodeParser.parse_file` that the analyzer consumes (the `tree`
entry is represented by its `root_node`). -/
structure ParsedData where
  file_path : String
  language : String
  root_node : TSNode
  code : String

/-- Per-file extraction result of `PythonAnalyzer.analyze`. -/
structure Analysis where
  file_path : String
  functions : List FunctionEntity
  classes : List ClassEntity
  imports : List ImportRecord
deriving DecidableEq, Repr

/-- Model of `PythonAnalyzer.analyze`: `none` models the empty-dict return on a
non-python input. -/
def analyze (parsed_data : ParsedData) : Option Analysis :=
  if parsed_data.language == "python" then
    let st := traverse_node parsed_data.code ⟨[], [], []⟩ parsed_data.root_node
    some { file_path := parsed_data.file_path, functions := st.functions,
           classes := st.classes, imports := st.imports }
  else
    none

/-- A node of the Code Context Graph, as built by `CodeContextGraph.add_file_analysis`.
Function nodes carry `params`/`calls` and no `methods`/`bases` keys; class nodes the
converse; an absent key read through `.get(key, [])` is modelled as `[]`. -/
structure GraphNode where
  id : String
  type : String
  name : String
  file : String
  line_start : Nat
  line_end : Nat
  params : List String
  calls : List String
  methods : List MethodInfo
  bases : List String
deriving DecidableEq, Repr

/-- An edge of the Code Context Graph; `from` and `to` being Lean keywords, the
fields are spelled `from_` and `to_`. -/
structure GraphEdge where
  from_ : String
  to_ : String
  type : String
  file : String
deriving DecidableEq, Repr

/-- The `file_map` entry stored per file path. -/
structure FileEntry where
  functions : List String
  classes : List String
deriving DecidableEq, Repr

/-- The `CodeContextGraph` state: `nodes`, `edges`, and the `file_map` dict
(modelled as an association list with Python-dict update semantics). -/
structure CodeContextGraph where
  nodes : List GraphNode
  edges : List GraphEdge
  file_map : List (String × FileEntry)
deriving DecidableEq, Repr

/-- The `CodeContextGraph.__init__` state. -/
def CodeContextGraph.init : CodeContextGraph :=
  { nodes := [], edges := [], file_map := [] }

/-- Python dict assignment `d[k] = v`: replace in place when the key exists,
append otherwise. -/
def dict_insert (m : List (String × FileEntry)) (k : String) (v : FileEntry) :
    List (String × FileEntry) :=
  if m.any (fun kv => kv.1 == k) then
    m.map (fun kv => if kv.1 == k then (k, v) else kv)
  else
    m ++ [(k, v)]

/-- The node id `f"{file_path}::{name}"`. -/
def node_id (file_path name : String) : String :=
  file_path ++ "::" ++ name

/-- The graph node built from one `FunctionEntity` in `add_file_analysis`. -/
def function_node (file_path : String) (f : FunctionEntity) : GraphNode :=
  { id := node_id file_path f.name, type := "function", name := f.name,
    file := file_path, line_start := f.line_start, line_end := f.line_end,
    params := f.params, calls := f.calls, methods := [], bases := [] }

/-- The graph node built from one `ClassEntity` in `add_file_analysis`. -/
def class_node (file_path : String) (c : ClassEntity) : GraphNode :=
  { id := node_id file_path c.name, type := "class", name := c.name,
    file := file_path, line_start := c.line_start, line_end := c.line_end,
    params := [], calls := [], methods := c.methods, bases := c.bases }

/-- The `calls` edges appended for one `FunctionEntity`. -/
def call_edges (file_path : String) (f : FunctionEntity) : List GraphEdge :=
  f.calls.map (fun call =>
    { from_ := node_id file_path f.name, to_ := call, type := "calls", file := file_path })

/-- The `inherits` edges appended for one `ClassEntity`. -/
def inherit_edges (file_path : String) (c : ClassEntity) : List GraphEdge :=
  c.bases.map (fun base =>
    { from_ := node_id file_path c.name, to_ := base, type := "inherits", file := file_path })

/-- All nodes appended by one `add_file_analysis` call: function nodes first
(in `analysis['functions']` order), then class nodes. -/
def new_nodes (a : Analysis) : List GraphNode :=
  a.functions.map (function_node a.file_path) ++ a.classes.map (class_node a.file_path)

/-- All edges appended by one `add_file_analysis` call: `calls` edges grouped per
function first, then `inherits` edges grouped per class. -/
def new_edges (a : Analysis) : List GraphEdge :=
  (a.functions.map (call_edges a.file_path)).flatten
    ++ (a.classes.map (inherit_edges a.file_path)).flatten

/-- Model of `CodeContextGraph.add_file_analysis` (nodes and edges live in separate
lists, so the per-entity interleaving of the Python loops collapses to these
appends without reordering either list). -/
def add_file_analysis (g : CodeContextGraph) (a : Analysis) : CodeContextGraph :=
  { nodes := g.nodes ++ new_nodes a,
    edges := g.edges ++ new_edges a,
    file_map := dict_insert g.file_map a.file_path
      ⟨a.functions.map (fun f => f.name), a.classes.map (fun c => c.name)⟩ }

/-- The graph reachable by ingesting the analyses `as` in order, starting from the
freshly constructed graph. -/
def build_graph (as : List Analysis) : CodeContextGraph :=
  as.foldl add_file_analysis .init

/-- The result record of `CodeContextGraph.get_statistics`. -/
structure Statistics where
  total_nodes : Nat
  total_edges : Nat
  functions : Nat
  classes : Nat
  files_analyzed : Nat
deriving DecidableEq, Repr

/-- Model of `CodeContextGraph.get_statistics`. -/
def get_statistics (g : CodeContextGraph) : Statistics :=
  { total_nodes := g.nodes.length,
    total_edges := g.edges.length,
    functions := (g.nodes.filter (fun nd => nd.type == "function")).length,
    classes := (g.nodes.filter (fun nd => nd.type == "class")).length,
    files_analyzed := g.file_map.length }

/-- Model of `CodeContextGraph.find_callers`: the loop accumulates `edge['from']`
for every edge of type `calls` whose `to` equals the argument. -/
def find_callers (g : CodeContextGraph) (function_name : String) : List String :=
  g.edges.foldl
    (fun callers edge =>
      if edge.type == "calls" && edge.to_ == function_name then
        callers ++ [edge.from_]
      else callers)
    []

/-- The loop of `CodeContextGraph.find_callees`: the first node whose name matches
sets the result and breaks. -/
def find_callees_go (function_name : String) : List GraphNode → List String
  | [] => []
  | nd :: rest =>
    if nd.name == function_name then nd.calls else find_callees_go function_name rest

/-- Model of `CodeContextGraph.find_callees` (`node.get('calls', [])` on a class
node yields `[]`, reflected by the `calls` field of `class_node`). -/
def find_callees (g : CodeContextGraph) (function_name : String) : List String :=
  find_callees_go function_name g.nodes

/-- The extension-to-language table of `CodeParser.detect_language`. -/
def ext_map : List (String × String) :=
  [(".py", "python"), (".js", "javascript"), (".ts", "javascript"),
   (".jsx", "javascript"), (".jac", "python")]

/-- The final path component, as `pathlib.PurePath.name` computes it for paths
without a trailing separator. -/
def py_path_name (p : String) : String :=
  String.mk ((p.data.reverse.takeWhile (fun c => c != '/')).reverse)

/-- The extension, as `pathlib.PurePath.suffix` computes it: the part of the final
component from its last dot on, empty when the last dot is absent, leading, or
trailing. -/
def py_suffix (p : String) : String :=
  let rev := (py_path_name p).data.reverse
  let tl := rev.takeWhile (fun c => c != '.')
  match rev.dropWhile (fun c => c != '.') with
  | [] => ""
  | _ :: before =>
    if before = [] then ""
    else if tl = [] then ""
    else String.mk ('.' :: tl.reverse)

/-- Python `str.lower()` (character-wise; coincides on the ASCII extensions the
table contains). -/
def str_lower (s : String) : String :=
  String.mk (s.data.map Char.toLower)

/-- Model of `CodeParser.detect_language`: look the lowercased suffix up in the
fixed table. -/
def detect_language (file_path : String) : Option String :=
  ((ext_map.find? (fun kv => kv.1 == str_lower (py_suffix file_path))).map
    (fun kv => kv.2))

/-- Model of `CodeParser.parse_file`.  `parsers` is the set of languages whose
grammar initialized in `__init__`; `read_and_parse` stands for the `try` block
(file read plus tree-sitter parse), whose `except` branch returning `None` is the
`none` of its result type. -/
def parse_file (parsers : List String)
    (read_and_parse : String → String → Option ParsedData)
    (file_path : String) : Option ParsedData :=
  match detect_language file_path with
  | none => none
  | some language =>
    if language ∈ parsers then read_and_parse language file_path else none

/-!
Concrete inputs.  The trees below transcribe the tree-sitter-python concrete syntax
trees (all children, anonymous tokens included) for small source files, with byte
offsets and rows computed from the source strings.
-/

/-- Source text of the nested-function scenario: a file defining
`def foo(a, b)` with body `bar(); baz()` nested inside `def outer()` whose last
statement calls `foo()`. -/
def code_nested : String :=
  "def outer():\n    def foo(a, b):\n        bar()\n        baz()\n    foo()\n"

/-- Tree-sitter CST of `code_nested`. -/
def tree_nested : TSNode :=
  tsn "module" 0 70 0 5 [
    tsn "function_definition" 0 69 0 4 [
      tsn "def" 0 3 0 0 [],
      tsn "identifier" 4 9 0 0 [],
      tsn "parameters" 9 11 0 0 [tsn "(" 9 10 0 0 [], tsn ")" 10 11 0 0 []],
      tsn ":" 11 12 0 0 [],
      tsn "block" 17 69 1 4 [
        tsn "function_definition" 17 59 1 3 [
          tsn "def" 17 20 1 1 [],
          tsn "identifier" 21 24 1 1 [],
          tsn "parameters" 24 30 1 1 [
            tsn "(" 24 25 1 1 [],
            tsn "identifier" 25 26 1 1 [],
            tsn "," 26 27 1 1 [],
            tsn "identifier" 28 29 1 1 [],
            tsn ")" 29 30 1 1 []],
          tsn ":" 30 31 1 1 [],
          tsn "block" 40 59 2 3 [
            tsn "expression_statement" 40 45 2 2 [
              tsn "call" 40 45 2 2 [
                tsn "identifier" 40 43 2 2 [],
                tsn "argument_list" 43 45 2 2 [
                  tsn "(" 43 44 2 2 [], tsn ")" 44 45 2 2 []]]],
            tsn "expression_statement" 54 59 3 3 [
              tsn "call" 54 59 3 3 [
                tsn "identifier" 54 57 3 3 [],
                tsn "argument_list" 57 59 3 3 [
                  tsn "(" 57 58 3 3 [], tsn ")" 58 59 3 3 []]]]]],
        tsn "expression_statement" 64 69 4 4 [
          tsn "call" 64 69 4 4 [
            tsn "identifier" 64 67 4 4 [],
            tsn "argument_list" 67 69 4 4 [
              tsn "(" 67 68 4 4 [], tsn ")" 68 69 4 4 []]]]]]]

def parsed_nested : ParsedData :=
  { file_path := "nested.py", language := "python",
    root_node := tree_nested, code := code_nested }

/-- Source text of the inheritance scenario: `class Dog(Animal)` with a single
method `bark`. -/
def code_dog : String :=
  "class Dog(Animal):\n    def bark(self):\n        pass\n"

/-- Tree-sitter CST of `code_dog`. -/
def tree_dog : TSNode :=
  tsn "module" 0 52 0 3 [
    tsn "class_definition" 0 51 0 2 [
      tsn "class" 0 5 0 0 [],
      tsn "identifier" 6 9 0 0 [],
      tsn "argument_list" 9 17 0 0 [
        tsn "(" 9 10 0 0 [],
        tsn "identifier" 10 16 0 0 [],
        tsn ")" 16 17 0 0 []],
      tsn ":" 17 18 0 0 [],
      tsn "block" 23 51 1 2 [
        tsn "function_definition" 23 51 1 2 [
          tsn "def" 23 26 1 1 [],
          tsn "identifier" 27 31 1 1 [],
          tsn "parameters" 31 37 1 1 [
            tsn "(" 31 32 1 1 [],
            tsn "identifier" 32 36 1 1 [],
            tsn ")" 36 37 1 1 []],
          tsn ":" 37 38 1 1 [],
          tsn "block" 47 51 2 2 [
            tsn "pass_statement" 47 51 2 2 []]]]]]

def parsed_dog : ParsedData :=
  { file_path := "dog.py", language := "python",
    root_node := tree_dog, code := code_dog }

/-- Source text of the nested-method limitation scenario: a function definition
sits inside an `if` statement in the class body, not directly in the body block. -/
def code_hidden : String :=
  "class C:\n    if True:\n        def hidden(self):\n            pass\n"

/-- Tree-sitter CST of `code_hidden`. -/
def tree_hidden : TSNode :=
  tsn "module" 0 65 0 4 [
    tsn "class_definition" 0 64 0 3 [
      tsn "class" 0 5 0 0 [],
      tsn "identifier" 6 7 0 0 [],
      tsn ":" 7 8 0 0 [],
      tsn "block" 13 64 1 3 [
        tsn "if_statement" 13 64 1 3 [
          tsn "if" 13 15 1 1 [],
          tsn "true" 16 20 1 1 [],
          tsn ":" 20 21 1 1 [],
          tsn "block" 30 64 2 3 [
            tsn "function_definition" 30 64 2 3 [
              tsn "def" 30 33 2 2 [],
              tsn "identifier" 34 40 2 2 [],
              tsn "parameters" 40 46 2 2 [
                tsn "(" 40 41 2 2 [],
                tsn "identifier" 41 45 2 2 [],
                tsn ")" 45 46 2 2 []],
              tsn ":" 46 47 2 2 [],
              tsn "block" 60 64 3 3 [
                tsn "pass_statement" 60 64 3 3 []]]]]]]]

def parsed_hidden : ParsedData :=
  { file_path := "hidden.py", language := "python",
    root_node := tree_hidden, code := code_hidden }

/-- A `function_definition` node with no children at all, hence no identifier
child: extraction must produce an empty name. -/
def tree_anonymous : TSNode :=
  tsn "function_definition" 0 0 0 0 []

/-- The analysis whose single function record is the empty-named entity extracted
from `tree_anonymous`. -/
def analysis_anonymous : Analysis :=
  { file_path := "empty.py",
    functions := [extract_function "" tree_anonymous],
    classes := [], imports := [] }

/-- A one-function analysis used by the duplicate-id counterexamples. -/
def analysis_f : Analysis :=
  { file_path := "a.py",
    functions := [{ name := "f", params := [], line_start := 1, line_end := 1,
                    calls := ["g"] }],
    classes := [], imports := [] }

/-- An analysis of a second file defining a class named `f`. -/
def analysis_class_f : Analysis :=
  { file_path := "c.py",
    functions := [],
    classes := [{ name := "f", methods := [], bases := ["Base"],
                  line_start := 1, line_end := 2 }],
    imports := [] }

/-- The names of all entities of one analysis, in the order `add_file_analysis`
creates their nodes (functions first, then classes). -/
def entity_names (a : Analysis) : List String :=
  a.functions.map (fun f => f.name) ++ a.classes.map (fun c => c.name)

/-- A stand-in for the file-read-and-parse step of `parse_file` that always
succeeds, used to witness that the guard alone forces the `None` return. -/
def parse_ok : String → String → Option ParsedData :=
  fun language file_path =>
    some { file_path := file_path, language := language,
           root_node := tsn "module" 0 0 0 0 [], code := "" }

/-!
Helper lemmas.
-/

/-- The state-threading loop of `_traverse_node` equals the accumulator-free
pre-order collection. -/
theorem traverse_node_eq_collect (code : String) (n : TSNode) :
    ∀ st, traverse_node code st n = sAppend st (collect_node code n) :=
  @TSNode.rec
    (fun n => ∀ st, traverse_node code st n = sAppend st (collect_node code n))
    (fun cs => ∀ st, traverse_node_list code st cs = sAppend st (collect_list code cs))
    (fun t sb eb sr er cs ih st => by
      rw [traverse_node, collect_node]
      rw [ih]
      split_ifs <;> simp [sAppend, List.append_assoc])
    (fun st => by
      rw [traverse_node_list, collect_list]
      simp [sAppend])
    (fun hd tl ih1 ih2 st => by
      rw [traverse_node_list, collect_list, ih1, ih2]
      simp [sAppend, List.append_assoc])
    n

/-- `analyze` in terms of the pre-order collection. -/
theorem analyze_eq_collect (p : ParsedData) :
    analyze p = if p.language == "python" then
      some { file_path := p.file_path,
             functions := (collect_node p.code p.root_node).functions,
             classes := (collect_node p.code p.root_node).classes,
             imports := (collect_node p.code p.root_node).imports }
    else none := by
  rw [analyze]
  split_ifs <;> simp_all [traverse_node_eq_collect, sAppend]

/-- Folding `add_file_analysis` appends each analysis's node block in order. -/
theorem foldl_add_nodes (as : List Analysis) :
    ∀ g : CodeContextGraph,
      (as.foldl add_file_analysis g).nodes = g.nodes ++ (as.map new_nodes).flatten := by
  induction as with
  | nil => intro g; simp
  | cons a as ih =>
    intro g
    simp only [List.foldl_cons, List.map_cons, List.flatten_cons, ih,
      add_file_analysis, List.append_assoc]

/-- Folding `add_file_analysis` appends each analysis's edge block in order. -/
theorem foldl_add_edges (as : List Analysis) :
    ∀ g : CodeContextGraph,
      (as.foldl add_file_analysis g).edges = g.edges ++ (as.map new_edges).flatten := by
  induction as with
  | nil => intro g; simp
  | cons a as ih =>
    intro g
    simp only [List.foldl_cons, List.map_cons, List.flatten_cons, ih,
      add_file_analysis, List.append_assoc]

theorem build_graph_nodes (as : List Analysis) :
    (build_graph as).nodes = (as.map new_nodes).flatten := by
  rw [build_graph, foldl_add_nodes]
  rfl

theorem build_graph_edges (as : List Analysis) :
    (build_graph as).edges = (as.map new_edges).flatten := by
  rw [build_graph, foldl_add_edges]
  rfl

/-- Every node of a built graph comes from the node block of one ingested
analysis. -/
theorem mem_build_graph_nodes {as : List Analysis} {nd : GraphNode}
    (h : nd ∈ (build_graph as).nodes) : ∃ a ∈ as, nd ∈ new_nodes a := by
  rw [build_graph_nodes] at h
  rcases List.mem_flatten.mp h with ⟨l, hl, hnd⟩
  rcases List.mem_map.mp hl with ⟨a, ha, rfl⟩
  exact ⟨a, ha, hnd⟩

/-- Every node created by one ingestion is a function node or a class node. -/
theorem new_nodes_type {a : Analysis} {nd : GraphNode} (h : nd ∈ new_nodes a) :
    nd.type = "function" ∨ nd.type = "class" := by
  rcases List.mem_append.mp h with h | h <;> rcases List.mem_map.mp h with ⟨e, _, rfl⟩
  · exact Or.inl rfl
  · exact Or.inr rfl

/-- Class nodes carry an empty `calls` list (the Python dict has no `calls` key;
`.get('calls', [])` yields `[]`). -/
theorem new_nodes_class_calls {a : Analysis} {nd : GraphNode} (h : nd ∈ new_nodes a)
    (ht : nd.type = "class") : nd.calls = [] := by
  rcases List.mem_append.mp h with h | h <;> rcases List.mem_map.mp h with ⟨e, _, rfl⟩
  · exact absurd ht (by simp [function_node])
  · rfl

/-- Counting: a list of nodes each typed `function` or `class` splits exactly into
the two filters. -/
theorem filter_type_length (l : List GraphNode)
    (h : ∀ nd ∈ l, nd.type = "function" ∨ nd.type = "class") :
    (l.filter (fun nd => nd.type == "function")).length
      + (l.filter (fun nd => nd.type == "class")).length = l.length := by
  induction l with
  | nil => simp
  | cons nd l ih =>
    have hnd := h nd (List.mem_cons_self nd l)
    have hl := ih (fun m hm => h m (List.mem_cons_of_mem _ hm))
    rcases hnd with hnd | hnd <;>
      simp only [List.filter_cons, hnd] <;> simp <;> omega

/-- The `find_callers` loop is filter-then-project. -/
theorem find_callers_foldl (x : String) (edges : List GraphEdge) :
    ∀ acc : List String,
      edges.foldl
        (fun callers edge =>
          if edge.type == "calls" && edge.to_ == x then callers ++ [edge.from_]
          else callers) acc
      = acc ++ (edges.filter (fun e => e.type == "calls" && e.to_ == x)).map
          GraphEdge.from_ := by
  induction edges with
  | nil => intro acc; simp
  | cons e es ih =>
    intro acc
    by_cases h : (e.type == "calls" && e.to_ == x) = true
    · simp only [List.foldl_cons]
      rw [if_pos h, ih, List.filter_cons, if_pos h]
      simp
    · simp only [List.foldl_cons]
      rw [if_neg h, ih, List.filter_cons, if_neg h]

/-- `find_callers` characterized: exactly the `from` ids of matching `calls`
edges, in edge order. -/
theorem find_callers_eq (g : CodeContextGraph) (x : String) :
    find_callers g x
      = (g.edges.filter (fun e => e.type == "calls" && e.to_ == x)).map
          GraphEdge.from_ := by
  rw [find_callers, find_callers_foldl]
  rfl

/-- The `find_callees` loop is first-match lookup. -/
theorem find_callees_go_eq (x : String) (l : List GraphNode) :
    find_callees_go x l
      = match l.find? (fun nd => nd.name == x) with
        | some nd => nd.calls
        | none => [] := by
  induction l with
  | nil => rfl
  | cons nd l ih =>
    by_cases h : (nd.name == x) = true <;>
      simp [find_callees_go, List.find?_cons, h, ih]

/-- A colon-free list prefixed by the `::` separator determines an empty leading
segment: the separator cannot reappear later. -/
theorem colon_prefix_nil (q n1 n2 : List Char) (h1 : ':' ∉ n1)
    (heq : ':' :: ':' :: n1 = q ++ ':' :: ':' :: n2) : q = [] := by
  cases q with
  | nil => rfl
  | cons c q' =>
    simp only [List.cons_append] at heq
    injection heq with hc heq2
    cases q' with
    | nil =>
      simp only [List.nil_append] at heq2
      injection heq2 with hd heq3
      exact absurd (heq3 ▸ List.mem_cons_self ':' n2) h1
    | cons d q'' =>
      simp only [List.cons_append] at heq2
      injection heq2 with hd heq3
      refine absurd ?_ h1
      rw [heq3]
      exact List.mem_append_right _ (List.mem_cons_self _ _)

/-- Splitting at the `::` separator is unambiguous when the trailing segments are
colon-free. -/
theorem sep_split_inj (p1 : List Char) :
    ∀ (p2 n1 n2 : List Char), ':' ∉ n1 → ':' ∉ n2 →
      p1 ++ ':' :: ':' :: n1 = p2 ++ ':' :: ':' :: n2 → p1 = p2 ∧ n1 = n2 := by
  induction p1 with
  | nil =>
    intro p2 n1 n2 h1 h2 heq
    simp only [List.nil_append] at heq
    have hq := colon_prefix_nil p2 n1 n2 h1 heq
    subst hq
    simp only [List.nil_append] at heq
    injection heq with _ heq2
    injection heq2 with _ heq3
    exact ⟨rfl, heq3⟩
  | cons c p1' ih =>
    intro p2 n1 n2 h1 h2 heq
    cases p2 with
    | nil =>
      simp only [List.nil_append] at heq
      have hq := colon_prefix_nil (c :: p1') n2 n1 h2 heq.symm
      exact absurd hq (List.cons_ne_nil c p1')
    | cons d p2' =>
      simp only [List.cons_append] at heq
      injection heq with hc heq2
      obtain ⟨hp, hn⟩ := ih p2' n1 n2 h1 h2 heq2
      exact ⟨by rw [hc, hp], hn⟩

/-- `node_id` is injective on colon-free entity names. -/
theorem node_id_inj {p1 p2 n1 n2 : String} (h1 : ':' ∉ n1.data) (h2 : ':' ∉ n2.data)
    (heq : node_id p1 n1 = node_id p2 n2) : p1 = p2 ∧ n1 = n2 := by
  have hsep : ("::" : String).data = [':', ':'] := rfl
  have hd : p1.data ++ ':' :: ':' :: n1.data = p2.data ++ ':' :: ':' :: n2.data := by
    have h := congrArg String.data heq
    simpa [node_id, String.data_append, hsep, List.append_assoc] using h
  obtain ⟨hp, hn⟩ := sep_split_inj _ _ _ _ h1 h2 hd
  exact ⟨String.ext hp, String.ext hn⟩

/-- The ids appended by one ingestion, in order. -/
theorem new_nodes_map_id (a : Analysis) :
    (new_nodes a).map (fun nd => nd.id)
      = (entity_names a).map (node_id a.file_path) := by
  simp only [new_nodes, entity_names, List.map_append, List.map_map]
  rfl

/-- The ids of a built graph, file block by file block. -/
theorem build_graph_map_id (as : List Analysis) :
    (build_graph as).nodes.map (fun nd => nd.id)
      = (as.map (fun a => (entity_names a).map (node_id a.file_path))).flatten := by
  rw [build_graph_nodes, List.map_flatten, List.map_map]
  congr 1
  refine List.map_congr_left ?_
  intro a _
  exact new_nodes_map_id a

/-- Full evaluation of the extraction on the nested-function file. -/
theorem analyze_nested_eval :
    analyze parsed_nested = some
      { file_path := "nested.py",
        functions := [
          { name := "outer", params := [], line_start := 1, line_end := 5,
            calls := ["bar", "baz", "foo"] },
          { name := "foo", params := ["a", "b"], line_start := 2, line_end := 4,
            calls := ["bar", "baz"] }],
        classes := [], imports := [] } := by
  rw [analyze_eq_collect]
  simp [parsed_nested, code_nested, tree_nested, tsn, tsList, collect_node, collect_list,
    sAppend, extract_function, extract_class, extract_methods,
    extract_params, extract_bases, extract_import, find_function_calls,
    find_function_calls_list, TSNode.children, TSNodeList.toList, TSNode.type,
    TSNode.startByte, TSNode.endByte, TSNode.startRow, TSNode.endRow, List.find?]
  decide

/-- Full evaluation of the extraction on the `Dog(Animal)` file. -/
theorem analyze_dog_eval :
    analyze parsed_dog = some
      { file_path := "dog.py",
        functions := [
          { name := "bark", params := ["self"], line_start := 2, line_end := 3,
            calls := [] }],
        classes := [
          { name := "Dog", methods := [{ name := "bark", line := 2 }],
            bases := ["Animal"], line_start := 1, line_end := 3 }],
        imports := [] } := by
  rw [analyze_eq_collect]
  simp [parsed_dog, code_dog, tree_dog, tsn, tsList, collect_node, collect_list,
    sAppend, extract_function, extract_class, extract_methods,
    extract_params, extract_bases, extract_import, find_function_calls,
    find_function_calls_list, TSNode.children, TSNodeList.toList, TSNode.type,
    TSNode.startByte, TSNode.endByte, TSNode.startRow, TSNode.endRow, List.find?]
  decide

/-- Full evaluation of the extraction on the file whose class hides a function
definition inside an `if` block. -/
theorem analyze_hidden_eval :
    analyze parsed_hidden = some
      { file_path := "hidden.py",
        functions := [
          { name := "hidden", params := ["self"], line_start := 3, line_end := 4,
            calls := [] }],
        classes := [
          { name := "C", methods := [], bases := [], line_start := 1, line_end := 4 }],
        imports := [] } := by
  rw [analyze_eq_collect]
  simp [parsed_hidden, code_hidden, tree_hidden, tsn, tsList, collect_node, collect_list,
    sAppend, extract_function, extract_class, extract_methods,
    extract_params, extract_bases, extract_import, find_function_calls,
    find_function_calls_list, TSNode.children, TSNodeList.toList, TSNode.type,
    TSNode.startByte, TSNode.endByte, TSNode.startRow, TSNode.endRow, List.find?]
  decide

/-!
Claim theorems.
-/

/-- C1 counterexample: ingesting the same file's analysis twice yields two nodes
with the identical id `a.py::f`, so GraphNode ids are not unique under repeated
ingestion, refuting the claim as stated. -/
theorem c1_counterexample :
    ¬ (((build_graph [analysis_f, analysis_f]).nodes.map (fun nd => nd.id)).Nodup) := by
  decide

/-- C1 (amended): for every graph built by a sequence of `add_file_analysis` calls
whose file paths are pairwise distinct, where within each file's analysis the
entity names (functions and classes together) are pairwise distinct and contain no
colon character, every GraphNode id (formed as `file_path::entity_name`) is unique
within the graph, including across files containing same-named entities. -/
theorem c1_amended_unique_ids (as : List Analysis)
    (hpaths : (as.map (fun a => a.file_path)).Nodup)
    (hnames : ∀ a ∈ as, (entity_names a).Nodup)
    (hcolon : ∀ a ∈ as, ∀ n ∈ entity_names a, ':' ∉ n.data) :
    ((build_graph as).nodes.map (fun nd => nd.id)).Nodup := by
  rw [build_graph_map_id, List.nodup_flatten]
  constructor
  · intro l hl
    rcases List.mem_map.mp hl with ⟨a, ha, rfl⟩
    refine List.Nodup.map_on ?_ (hnames a ha)
    intro n1 h1 n2 h2 heq
    exact (node_id_inj (hcolon a ha n1 h1) (hcolon a ha n2 h2) heq).2
  · have hpw : as.Pairwise (fun a b => a.file_path ≠ b.file_path) :=
      List.pairwise_map.mp hpaths
    rw [List.pairwise_map]
    refine List.Pairwise.imp_of_mem ?_ hpw
    intro a b ha hb hne x hx1 hx2
    rcases List.mem_map.mp hx1 with ⟨n1, hn1, rfl⟩
    rcases List.mem_map.mp hx2 with ⟨n2, hn2, heq⟩
    exact hne (node_id_inj (hcolon a ha n1 hn1) (hcolon b hb n2 hn2) heq.symm).1

/-- C1 witness: two distinct files, one defining function `f`, the other class `f`,
satisfy the hypotheses and produce a graph with pairwise distinct node ids. -/
theorem c1_witness :
    (([analysis_f, analysis_class_f].map (fun a => a.file_path)).Nodup
      ∧ (∀ a ∈ [analysis_f, analysis_class_f], (entity_names a).Nodup)
      ∧ (∀ a ∈ [analysis_f, analysis_class_f], ∀ n ∈ entity_names a, ':' ∉ n.data))
    ∧ ((build_graph [analysis_f, analysis_class_f]).nodes.map (fun nd => nd.id)).Nodup :=
  ⟨⟨by decide, by decide, by decide⟩,
    c1_amended_unique_ids [analysis_f, analysis_class_f]
      (by decide) (by decide) (by decide)⟩

/-- C2 counterexample: on the nested-function file, `outer`'s recorded call list is
not `["foo"]` (the subtree scan also collects `bar` and `baz` from the nested
function's body), refuting the claimed extraction result. -/
theorem c2_counterexample :
    ¬ ((analyze parsed_nested).map (fun a => a.functions.map (fun f => (f.name, f.calls)))
        = some [("outer", ["foo"]), ("foo", ["bar", "baz"])]) := by
  rw [analyze_nested_eval]
  decide

/-- C2 (amended): the nested-function file yields exactly two FunctionEntity
records, `outer` then `foo`; `foo`'s call list is `["bar", "baz"]` in source order
without deduplication, while `outer`'s call list is `["bar", "baz", "foo"]`: the
recursive call scan covers the entire body subtree, so the nested function's calls
are double-counted under `outer` as well. -/
theorem c2_amended_extraction :
    (analyze parsed_nested).map (fun a => a.functions.map (fun f => (f.name, f.calls)))
      = some [("outer", ["bar", "baz", "foo"]), ("foo", ["bar", "baz"])] := by
  rw [analyze_nested_eval]
  decide

/-- C3: on every graph reachable by any sequence of `add_file_analysis` calls,
`get_statistics` returns `total_nodes` exactly equal to its `functions` count plus
its `classes` count. -/
theorem c3_total_nodes_split (as : List Analysis) :
    (get_statistics (build_graph as)).total_nodes
      = (get_statistics (build_graph as)).functions
        + (get_statistics (build_graph as)).classes := by
  have h : ∀ nd ∈ (build_graph as).nodes, nd.type = "function" ∨ nd.type = "class" := by
    intro nd hnd
    obtain ⟨a, _, hmem⟩ := mem_build_graph_nodes hnd
    exact new_nodes_type hmem
  exact (filter_type_length _ h).symm

/-- C4: `find_callers x` returns exactly the `from` ids of the edges of type
`calls` whose `to` equals `x` by exact string match; consequently every call
target recorded for an ingested FunctionEntity round-trips: the entity's node id
appears in `find_callers` of that target. -/
theorem c4_find_callers_spec (as : List Analysis) (x : String) :
    find_callers (build_graph as) x
      = ((build_graph as).edges.filter
          (fun e => e.type == "calls" && e.to_ == x)).map GraphEdge.from_
    ∧ ∀ a ∈ as, ∀ f ∈ a.functions, x ∈ f.calls →
        node_id a.file_path f.name ∈ find_callers (build_graph as) x := by
  refine ⟨find_callers_eq _ _, ?_⟩
  intro a ha f hf hx
  rw [find_callers_eq]
  have hedge :
      ({ from_ := node_id a.file_path f.name, to_ := x,
         type := "calls", file := a.file_path } : GraphEdge) ∈ (build_graph as).edges := by
    rw [build_graph_edges]
    refine List.mem_flatten.mpr ⟨new_edges a, List.mem_map_of_mem _ ha, ?_⟩
    refine List.mem_append_left _ ?_
    refine List.mem_flatten.mpr
      ⟨call_edges a.file_path f, List.mem_map_of_mem _ hf, ?_⟩
    exact List.mem_map_of_mem _ hx
  refine List.mem_map.mpr ⟨_, List.mem_filter.mpr ⟨hedge, ?_⟩, rfl⟩
  simp

/-- C4 witness: ingesting `a.py` whose function `f` calls `g` makes `a.py::f` a
caller of `g`. -/
theorem c4_witness :
    node_id "a.py" "f" ∈ find_callers (build_graph [analysis_f]) "g" :=
  (c4_find_callers_spec [analysis_f] "g").2 analysis_f (by decide)
    { name := "f", params := [], line_start := 1, line_end := 1, calls := ["g"] }
    (by decide) (by decide)

/-- C5: re-ingesting the same analysis appends a second copy of every node and
edge rather than replacing the first, so a non-empty analysis ingested twice
leaves the node list with duplicates. -/
theorem c5_reingest_appends (g : CodeContextGraph) (a : Analysis) :
    (add_file_analysis (add_file_analysis g a) a).nodes
        = g.nodes ++ new_nodes a ++ new_nodes a
    ∧ (add_file_analysis (add_file_analysis g a) a).edges
        = g.edges ++ new_edges a ++ new_edges a
    ∧ (a.functions ≠ [] ∨ a.classes ≠ [] →
        ¬ ((add_file_analysis (add_file_analysis g a) a).nodes.Nodup)) := by
  refine ⟨rfl, rfl, ?_⟩
  intro h hnodup
  obtain ⟨nd, hnd⟩ : ∃ nd, nd ∈ new_nodes a := by
    rcases h with h | h
    · cases hf : a.functions with
      | nil => exact absurd hf h
      | cons f fs =>
        exact ⟨function_node a.file_path f,
          List.mem_append_left _
            (List.mem_map_of_mem _ (by rw [hf]; exact List.mem_cons_self f fs))⟩
    · cases hc : a.classes with
      | nil => exact absurd hc h
      | cons c cls =>
        exact ⟨class_node a.file_path c,
          List.mem_append_right _
            (List.mem_map_of_mem _ (by rw [hc]; exact List.mem_cons_self c cls))⟩
  have hnodup' : ((g.nodes ++ new_nodes a) ++ new_nodes a).Nodup := hnodup
  rw [List.nodup_append] at hnodup'
  exact hnodup'.2.2 (List.mem_append_right _ hnd) hnd

/-- C5 witness: the one-function analysis of `a.py` ingested twice into the fresh
graph leaves a node list that is not duplicate-free. -/
theorem c5_witness :
    (analysis_f.functions ≠ [] ∨ analysis_f.classes ≠ [])
    ∧ ¬ ((add_file_analysis (add_file_analysis .init analysis_f) analysis_f).nodes.Nodup) :=
  ⟨Or.inl (by decide), (c5_reingest_appends .init analysis_f).2.2 (Or.inl (by decide))⟩

/-- C6: `find_callees x` returns the call list stored on the first node, in node
insertion order, whose name equals `x` (so with several same-named nodes only the
first-inserted one answers), and `[]` when no node matches. -/
theorem c6_find_callees_first (g : CodeContextGraph) (x : String) :
    find_callees g x
      = match g.nodes.find? (fun nd => nd.name == x) with
        | some nd => nd.calls
        | none => [] :=
  find_callees_go_eq x g.nodes

/-- C7: the file `class Dog(Animal)` with method `bark` yields exactly one
ClassEntity with bases `["Animal"]` and exactly one method record `bark`; and
methods are discovered only in the class's immediate body block, so a function
definition nested inside an `if` statement within the class body is not recorded
as a method (though the traversal still extracts it as a function). -/
theorem c7_class_extraction :
    (analyze parsed_dog).map (fun a => a.classes.map
        (fun c => (c.name, c.bases, c.methods.map (fun m => (m.name, m.line)))))
      = some [("Dog", ["Animal"], [("bark", 2)])]
    ∧ (analyze parsed_hidden).map (fun a => a.classes.map (fun c => (c.name, c.methods)))
      = some [("C", [])]
    ∧ (analyze parsed_hidden).map (fun a => a.functions.map (fun f => f.name))
      = some ["hidden"] := by
  rw [analyze_dog_eval, analyze_hidden_eval]
  exact ⟨rfl, rfl, rfl⟩

/-- C8: for every file whose extension is not in the fixed mapping, or whose
mapped language has no initialized parser, `parse_file` returns `None` (no read
or parse is even attempted). -/
theorem c8_parse_file_guard (parsers : List String)
    (read_and_parse : String → String → Option ParsedData) (file_path : String)
    (h : detect_language file_path = none
      ∨ ∃ l, detect_language file_path = some l ∧ l ∉ parsers) :
    parse_file parsers read_and_parse file_path = none := by
  rcases h with h | ⟨l, hl, hnp⟩
  · simp only [parse_file]
    rw [h]
  · simp only [parse_file]
    rw [hl]
    simp only [if_neg hnp]

/-- C8 witness: `script.py` maps to python, which has no initialized parser when
only the javascript grammar loaded, so `parse_file` returns `None` even though
the read-and-parse step itself would succeed. -/
theorem c8_witness :
    (detect_language "script.py" = none
      ∨ ∃ l, detect_language "script.py" = some l ∧ l ∉ ["javascript"])
    ∧ parse_file ["javascript"] parse_ok "script.py" = none :=
  ⟨Or.inr ⟨"python", by decide, by decide⟩,
    c8_parse_file_guard ["javascript"] parse_ok "script.py"
      (Or.inr ⟨"python", by decide, by decide⟩)⟩

/-- C9: a function or class definition node with no identifier-tagged child
yields an entity whose name is the empty string, without error, and the
empty-named entity is still ingested into the graph, its node id being
`file_path::`. -/
theorem c9_empty_name (code : String) (n : TSNode)
    (h : ∀ c ∈ n.children, c.type ≠ "identifier")
    (g : CodeContextGraph) (a : Analysis)
    (hf : extract_function code n ∈ a.functions) :
    (extract_function code n).name = ""
    ∧ (extract_class code n).name = ""
    ∧ function_node a.file_path (extract_function code n)
        ∈ (add_file_analysis g a).nodes
    ∧ node_id a.file_path "" ∈ (add_file_analysis g a).nodes.map (fun nd => nd.id) := by
  have hfind : n.children.find? (fun c => c.type == "identifier") = none := by
    rw [List.find?_eq_none]
    intro c hc
    simpa using h c hc
  have hname : (extract_function code n).name = "" := by
    simp only [extract_function]
    rw [hfind]
  have hcls : (extract_class code n).name = "" := by
    simp only [extract_class]
    rw [hfind]
  have hmem : function_node a.file_path (extract_function code n)
      ∈ (add_file_analysis g a).nodes :=
    List.mem_append_right _ (List.mem_append_left _ (List.mem_map_of_mem _ hf))
  refine ⟨hname, hcls, hmem, ?_⟩
  refine List.mem_map.mpr ⟨_, hmem, ?_⟩
  show node_id a.file_path (extract_function code n).name = node_id a.file_path ""
  rw [hname]

/-- C9 witness: a `function_definition` node with no children, placed in an
analysis of `empty.py`, produces the empty name and the graph node `empty.py::`. -/
theorem c9_witness :
    (∀ c ∈ tree_anonymous.children, c.type ≠ "identifier")
    ∧ ((extract_function "" tree_anonymous).name = ""
      ∧ (extract_class "" tree_anonymous).name = ""
      ∧ function_node "empty.py" (extract_function "" tree_anonymous)
          ∈ (add_file_analysis .init analysis_anonymous).nodes
      ∧ node_id "empty.py" ""
          ∈ (add_file_analysis .init analysis_anonymous).nodes.map (fun nd => nd.id)) :=
  ⟨by decide,
    c9_empty_name "" tree_anonymous (by decide) .init analysis_anonymous (by decide)⟩

/-- C10: `find_callees x` returns `[]` both when no node has name `x` and when the
first node in insertion order whose name equals `x` is a class node (class nodes
carry no call list), even if a later same-named function node has a non-empty
call list. -/
theorem c10_find_callees_empty (as : List Analysis) (x : String) :
    ((build_graph as).nodes.find? (fun nd => nd.name == x) = none →
        find_callees (build_graph as) x = [])
    ∧ (∀ nd, (build_graph as).nodes.find? (fun nd => nd.name == x) = some nd →
        nd.type = "class" → find_callees (build_graph as) x = []) := by
  constructor
  · intro h
    rw [find_callees, find_callees_go_eq, h]
  · intro nd h ht
    have hmem : nd ∈ (build_graph as).nodes := List.mem_of_find?_eq_some h
    obtain ⟨a, _, hmem2⟩ := mem_build_graph_nodes hmem
    have hcalls := new_nodes_class_calls hmem2 ht
    rw [find_callees, find_callees_go_eq, h]
    exact hcalls

/-- C10 witness: with `c.py` defining class `f` ingested before `a.py` defining
function `f` (whose call list is `["g"]`), the first name match is the class
node, and `find_callees "f"` is `[]` despite the later function node's non-empty
call list. -/
theorem c10_witness :
    (build_graph [analysis_class_f, analysis_f]).nodes.map
        (fun nd => (nd.name, nd.type, nd.calls))
      = [("f", "class", []), ("f", "function", ["g"])]
    ∧ (build_graph [analysis_class_f, analysis_f]).nodes.find?
        (fun nd => nd.name == "f")
      = some (class_node "c.py"
          { name := "f", methods := [], bases := ["Base"], line_start := 1, line_end := 2 })
    ∧ find_callees (build_graph [analysis_class_f, analysis_f]) "f" = [] :=
  ⟨by decide, by decide,
    (c10_find_callees_empty [analysis_class_f, analysis_f] "f").2
      (class_node "c.py"
        { name := "f", methods := [], bases := ["Base"], line_start := 1, line_end := 2 })
      (by decide) rfl⟩
